import Mathlib

/-!
Verification of the openvpnManager session-lifecycle controller
(`src/openvpnManager.py`) against its natural-language specification.

Strings are modelled as `List Char`; the file embeds, function by function,
the pure content of `wait_for_initialization`, `get_credentials`,
`check_permissions` (audit and remediation), `kill_openvpn`,
`start_vpn`, `find_ovpn_files` and `needs_credentials`, with external
effects (filesystem modes, process kills, subprocess exit statuses)
supplied as explicit oracles.
-/

/-! ## String helpers (case-sensitive substring / suffix tests) -/

/-- `isPrefixChk n h` decides whether `n` is a prefix of `h`
(character-by-character, case-sensitive). -/
def isPrefixChk : List Char → List Char → Bool
  | [], _ => true
  | _ :: _, [] => false
  | a :: as, b :: bs => a == b && isPrefixChk as bs

/-- `containsSub n h` decides whether `n` occurs as a contiguous substring
of `h` — the embedding of Python's `n in h` on strings. -/
def containsSub (n : List Char) : List Char → Bool
  | [] => n.isEmpty
  | c :: t => isPrefixChk n (c :: t) || containsSub n t

/-- `endsWithStr s suffix` decides whether `s` ends with `suffix` —
the embedding of Python's `str.endswith`. -/
def endsWithStr (s suffix : String) : Bool :=
  isPrefixChk suffix.data.reverse s.data.reverse

/-! ## Verbose-mode log classifier (`wait_for_initialization`)

The Python loop reads lines from the tailed log; each line is checked for
the success marker first, then for any of the three failure markers; a
falsy read ends the stream.  The three control paths (`return True`,
`return False` on a marker, fall-through at end of stream) are the
spec's `Established` / `Failed` / `Indeterminate` outcomes. -/

/-- Success marker scanned for on each log line. -/
def successMarker : List Char := "Initialization Sequence Completed".data

/-- The fixed failure markers scanned for on each log line. -/
def failureMarkers : List (List Char) :=
  ["AUTH_FAILED".data, "Connection refused".data, "No such file or directory".data]

/-- Does a line contain the success marker? -/
def hasSuccess (l : List Char) : Bool := containsSub successMarker l

/-- Does a line contain any failure marker? -/
def hasFailure (l : List Char) : Bool := failureMarkers.any (fun m => containsSub m l)

/-- The three terminal classifications of a connection attempt. -/
inductive Outcome where
  | Established
  | Failed
  | Indeterminate
deriving DecidableEq, Repr

/-- The classifier of `wait_for_initialization`, one line at a time:
success marker checked before the failure markers on each line; end of
stream with no terminal transition is `Indeterminate` (the code's
fall-through `return False`). -/
def wait_for_initialization : List (List Char) → Outcome
  | [] => .Indeterminate
  | l :: ls =>
    if hasSuccess l then .Established
    else if hasFailure l then .Failed
    else wait_for_initialization ls

/-- The code's actual boolean return value: `Established` is `True`,
both `Failed` and `Indeterminate` are `False`. -/
def wait_for_initialization_b (ls : List (List Char)) : Bool :=
  wait_for_initialization ls == .Established

/-! ## CredentialStore persistence (`get_credentials`)

When a new credential is persisted the source executes, in order:
`open(cred_file, 'w')` (the file is created with the process's default
mode, `0o666 & ~umask`), then `os.chmod(cred_file, 0o600)`, then
`f.write(f"{username}\n{password}\n")`.  We model this as an explicit
event trace over the secret file. -/

/-- A filesystem event on the secret file. -/
inductive FsEvent where
  | create (mode : Nat)
  | chmodTo (mode : Nat)
  | writeSecret
deriving DecidableEq, Repr

/-- The event trace of `get_credentials` when persisting a new
credential, parameterised by the default creation mode
(`0o666 & ~umask`, e.g. `0o644` under the standard umask `022`). -/
def persistEvents (defaultMode : Nat) : List FsEvent :=
  [.create defaultMode, .chmodTo 0o600, .writeSecret]

/-- Permission bits of the secret file after a sequence of events
(`none` before creation). -/
def modeAfter : List FsEvent → Option Nat
  | [] => none
  | evs =>
    evs.foldl
      (fun m ev =>
        match ev with
        | .create k => some k
        | .chmodTo k => some k
        | .writeSecret => m)
      none

/-- Does a secret-byte write occur strictly before any `chmod` to mode
`m` in the trace? -/
def writeBeforeChmod (m : Nat) : List FsEvent → Bool
  | [] => false
  | .writeSecret :: _ => true
  | .chmodTo k :: rest => if k = m then false else writeBeforeChmod m rest
  | .create _ :: rest => writeBeforeChmod m rest

/-- The property claimed of `resolve`: from creation on (every nonempty
prefix of the trace), the secret file's permission bits are `0o600`. -/
def SecureAtEveryPoint (evs : List FsEvent) : Prop :=
  ∀ k, 1 ≤ k → k ≤ evs.length → modeAfter (evs.take k) = some 0o600

/-! ## Stored credential content (`get_credentials`, C10)

`username = input("Username: ").strip()`,
`password = getpass("Password: ").strip()`,
`f.write(f"{username}\n{password}\n")`. -/

/-- Python's whitespace class for `str.strip()` (ASCII part). -/
def isPySpace (c : Char) : Bool :=
  c = ' ' || c = '\t' || c = '\n' || c = '\r' || c = '\x0b' || c = '\x0c'

/-- Python's `str.strip()`: drop leading and trailing whitespace. -/
def pyStrip (s : List Char) : List Char :=
  ((s.dropWhile isPySpace).reverse.dropWhile isPySpace).reverse

/-- The bytes `get_credentials` writes to the secret file for entered
username `u` and password `p`. -/
def credFileContent (u p : List Char) : List Char :=
  pyStrip u ++ ['\n'] ++ pyStrip p ++ ['\n']

/-- Split a character sequence at every newline, keeping the (possibly
empty) trailing segment — the line structure of the stored file. -/
def splitNl : List Char → List (List Char)
  | [] => [[]]
  | c :: cs =>
    match splitNl cs with
    | [] => [[]]
    | l :: ls => if c = '\n' then [] :: l :: ls else (c :: l) :: ls

/-! ## PermissionAuditor (`check_permissions`)

The audit walks the OpenVPN directory for files named `*.ovpn`
(required mode `0600`), then checks the credentials directory (required
`0700`) and the `*.cred` files inside it (required `0600`), collecting
one record per deviation.  Each deviation is printed with its actual
mode and paired with a `chmod <expected> <path>` fix command; we record
the pair as a `PermIssue`. -/

/-- A regular file as seen by the audit: its full path, basename, and
full `st_mode` (the code masks with `0o777` itself). -/
structure PFile where
  path : String
  name : String
  stMode : Nat
deriving DecidableEq, Repr

/-- The credentials directory as seen by the audit: its path, full
`st_mode`, and the directory entries inside it. -/
structure CredDir where
  path : String
  stMode : Nat
  files : List PFile
deriving DecidableEq, Repr

/-- The part of the filesystem `check_permissions` looks at: the walk of
the OpenVPN directory and, when it exists, the credentials directory. -/
structure PTree where
  ovpnWalk : List PFile
  credDir : Option CredDir
deriving DecidableEq, Repr

/-- One recorded permission deviation (printed actual mode plus the
expected mode carried by the generated `chmod` fix command). -/
structure PermIssue where
  path : String
  expected : Nat
  actual : Nat
deriving DecidableEq, Repr

/-- Issues recorded by `check_permissions`, in the order the code
appends them: `.ovpn` files, then the credentials directory, then the
`.cred` files inside it. -/
def auditIssues (t : PTree) : List PermIssue :=
  ((t.ovpnWalk.filter (fun f => endsWithStr f.name ".ovpn")).filterMap
    (fun f =>
      if f.stMode &&& 0o777 ≠ 0o600 then
        some ⟨f.path, 0o600, f.stMode &&& 0o777⟩
      else none)) ++
  (match t.credDir with
   | none => []
   | some d =>
     (if d.stMode &&& 0o777 ≠ 0o700 then
        [⟨d.path, 0o700, d.stMode &&& 0o777⟩]
      else []) ++
     (d.files.filter (fun f => endsWithStr f.name ".cred")).filterMap
       (fun f =>
         if f.stMode &&& 0o777 ≠ 0o600 then
           some ⟨f.path, 0o600, f.stMode &&& 0o777⟩
         else none))

/-- `issues_found` at the end of the scan: the audit found no deviation
exactly when the recorded list is empty. -/
def auditOk (t : PTree) : Bool := auditIssues t |>.isEmpty

/-! ### Remediation (`check_permissions`, fix branch)

After confirmation the code runs
`for cmd in fix_commands: subprocess.run(cmd, shell=True, check=True)`
inside a single `try`; the first failing command raises, the `except`
returns `False`.  `ok` is the per-command success oracle; the result is
the list of commands actually run and the returned boolean. -/

/-- `remediate ok cmds = (attempted, result)`: commands are attempted in
order; a failure stops the loop (the exception propagates to the
`except` around it) and yields `false`; completing all yields `true`. -/
def remediate (ok : String → Bool) : List String → List String × Bool
  | [] => ([], true)
  | c :: cs =>
    if ok c then
      let r := remediate ok cs
      (c :: r.1, r.2)
    else ([c], false)

/-! ## ProcessController: `kill_openvpn`

`pgrep openvpn` either fails (no match — the `CalledProcessError` path,
returning `False`) or yields a nonempty list of pids; each pid is then
killed with `sudo kill` under `check=True` inside the same `try`, so a
failing kill aborts the loop and returns `False`.  `killOk` is the
per-pid success oracle; we return the boolean result together with the
list of pids actually terminated. -/

/-- The kill loop: terminate pids in order; a failing kill raises, so
later pids are not attempted.  Yields (terminated pids, loop completed). -/
def killLoop (killOk : String → Bool) : List String → List String × Bool
  | [] => ([], true)
  | p :: ps =>
    if killOk p then
      let r := killLoop killOk ps
      (p :: r.1, r.2)
    else ([], false)

/-- `kill_openvpn pids killOk = (returned boolean, terminated pids)`.
`pids = []` models `pgrep` exiting nonzero (no matching process). -/
def kill_openvpn (pids : List String) (killOk : String → Bool) : Bool × List String :=
  if pids.isEmpty then (false, [])
  else
    let r := killLoop killOk pids
    (r.2, r.1)

/-! ## ProcessController: `start_vpn`

`start_vpn` is embedded as a trace-producing function over an
environment of external oracles: `sudo -v` success, `touch`/`chmod` on
the log sink, whether the chosen config needs credentials, whether
`get_credentials` returns a path, the client invocation's exit status,
mode, liveness/classifier results, a user interrupt during the wait,
and whether the cleanup `rm` succeeds.  The trace records the order of
external actions; `logCreated`/`logExists` track the log sink file. -/

/-- External oracles of one `start_vpn` call.  `instanceRunning` is the
prior state (whether an OpenVPN instance is already running); it feeds
only `kill_openvpn`'s result, which `start_vpn` ignores. -/
structure StartEnv where
  sudoOk : Bool
  instanceRunning : Bool
  touchOk : Bool
  chmodOk : Bool
  requiresAuth : Bool
  credOk : Bool
  launchOk : Bool
  debug : Bool
  interrupt : Bool
  aliveAfterSleep : Bool
  initOk : Bool
  rmOk : Bool
deriving DecidableEq, Repr

/-- The external actions `start_vpn` can take, in trace order. -/
inductive Act where
  | checkSudo
  | killExisting
  | touchLog
  | chmodLog
  | resolveCred
  | launch
  | pollAlive
  | tailLog
  | rmLog
deriving DecidableEq, Repr

/-- Result of one `start_vpn` call: the action trace, the returned
boolean, whether the call created the log sink file, and whether that
file still exists when the call returns. -/
structure StartRes where
  trace : List Act
  ret : Bool
  logCreated : Bool
  logExists : Bool
deriving DecidableEq, Repr

/-- The `finally` block: in debug (verbose) mode nothing runs and the
log file stays; otherwise `sudo rm -f` is attempted (its own failure is
swallowed by the inner `except: pass`). -/
def finallyCleanup (e : StartEnv) (tr : List Act) (ret : Bool) : StartRes :=
  if e.debug then ⟨tr, ret, true, true⟩
  else if e.rmOk then ⟨tr ++ [.rmLog], ret, true, false⟩
  else ⟨tr ++ [.rmLog], ret, true, true⟩

/-- One call to `start_vpn config debug`, following the source line by
line: sudo check; unconditional `kill_openvpn`; log-sink `touch` +
`chmod 666` (abort on failure, file possibly left behind); credential
resolution when the config needs it (abort on `None`, before the
`try`); then the `try` block: client launch, debug log tail + classifier
or normal-mode sleep + liveness poll, with the `finally` cleanup. -/
def startVpn (e : StartEnv) : StartRes :=
  if !e.sudoOk then ⟨[.checkSudo], false, false, false⟩
  else
    let tr0 : List Act := [.checkSudo, .killExisting]
    if !e.touchOk then ⟨tr0 ++ [.touchLog], false, false, false⟩
    else if !e.chmodOk then ⟨tr0 ++ [.touchLog, .chmodLog], false, true, true⟩
    else
      let tr1 := tr0 ++ [Act.touchLog, Act.chmodLog]
      if e.requiresAuth && !e.credOk then
        ⟨tr1 ++ [.resolveCred], false, true, true⟩
      else
        let tr2 := tr1 ++ (if e.requiresAuth then [Act.resolveCred] else [])
        let tr3 := tr2 ++ [Act.launch]
        if !e.launchOk then finallyCleanup e tr3 false
        else if e.debug then
          ⟨tr3 ++ [.tailLog], if e.interrupt then false else e.initOk, true, true⟩
        else if e.interrupt then finallyCleanup e tr3 false
        else finallyCleanup e (tr3 ++ [.pollAlive]) e.aliveAfterSleep

/-! ## ConfigDiscovery (`find_ovpn_files`, `needs_credentials`) -/

/-- A file met by `os.walk`: the directory it sits in, its basename and
its content. -/
structure WalkFile where
  dirPath : String
  name : String
  content : String
deriving DecidableEq, Repr

/-- One entry of `find_ovpn_files`'s result. -/
structure ConfigEntry where
  name : String
  full_path : String
  dir : String
deriving DecidableEq, Repr

/-- `os.path.basename`: the part of the path after the last slash. -/
def basenameStr (p : String) : String :=
  ⟨(p.data.reverse.takeWhile (fun c => c ≠ '/')).reverse⟩

/-- `find_ovpn_files` over a flattened `os.walk` listing: keep the files
named `*.ovpn` and build a `ConfigEntry` for each. -/
def find_ovpn_files (walk : List WalkFile) : List ConfigEntry :=
  (walk.filter (fun f => endsWithStr f.name ".ovpn")).map
    (fun f => ⟨f.name, f.dirPath ++ "/" ++ f.name, basenameStr f.dirPath⟩)

/-- `needs_credentials`: read the config file's content and test for the
`auth-user-pass` directive.  A pure function of the content — the
classification performs no writes by construction. -/
def needs_credentials (content : String) : Bool :=
  containsSub "auth-user-pass".data content.data

/-- The spec-side statement of marker presence: the authentication
directive occurs somewhere in the file's content. -/
def MarkerPresent (content : String) : Prop :=
  ∃ p t, content.data = p ++ "auth-user-pass".data ++ t

/-! ## Spec-side predicates used to state the claims -/

/-- Spec-side: every file the audit examines already satisfies its
required mode. -/
def TreeAllOk (t : PTree) : Prop :=
  (∀ f ∈ t.ovpnWalk, endsWithStr f.name ".ovpn" = true → f.stMode &&& 0o777 = 0o600) ∧
  (∀ d, t.credDir = some d →
    d.stMode &&& 0o777 = 0o700 ∧
    ∀ f ∈ d.files, endsWithStr f.name ".cred" = true → f.stMode &&& 0o777 = 0o600)

/-- Spec-side: the number K of examined files (and the credential
directory) whose mode deviates from its requirement. -/
def wrongCount (t : PTree) : Nat :=
  (t.ovpnWalk.filter (fun f => endsWithStr f.name ".ovpn")).countP
    (fun f => decide (f.stMode &&& 0o777 ≠ 0o600)) +
  (match t.credDir with
   | none => 0
   | some d =>
     (if d.stMode &&& 0o777 ≠ 0o700 then 1 else 0) +
     (d.files.filter (fun f => endsWithStr f.name ".cred")).countP
       (fun f => decide (f.stMode &&& 0o777 ≠ 0o600)))

/-- Spec-side: a recorded issue carries the correct expected/actual mode
pair of a deviating item the audit examined. -/
def IssueCorrect (t : PTree) (i : PermIssue) : Prop :=
  i.actual ≠ i.expected ∧
  ((∃ f ∈ t.ovpnWalk, endsWithStr f.name ".ovpn" = true ∧
      i.path = f.path ∧ i.expected = 0o600 ∧ i.actual = f.stMode &&& 0o777) ∨
   (∃ d, t.credDir = some d ∧
      i.path = d.path ∧ i.expected = 0o700 ∧ i.actual = d.stMode &&& 0o777) ∨
   (∃ d, t.credDir = some d ∧ ∃ f ∈ d.files, endsWithStr f.name ".cred" = true ∧
      i.path = f.path ∧ i.expected = 0o600 ∧ i.actual = f.stMode &&& 0o777))

/-- Claim C3 at one input: remediation attempts every item's fix command
and the aggregate result is true exactly when all items succeeded. -/
def ClaimC3At (ok : String → Bool) (cmds : List String) : Prop :=
  (remediate ok cmds).1 = cmds ∧
  ((remediate ok cmds).2 = true ↔ ∀ c ∈ cmds, ok c = true)

/-- Claim C6 at one input: `kill_openvpn` returns true exactly when at
least one matching process was terminated. -/
def ClaimC6At (pids : List String) (killOk : String → Bool) : Prop :=
  (kill_openvpn pids killOk).1 = true ↔ (kill_openvpn pids killOk).2 ≠ []

/-- Claim C7 at one input: in non-verbose mode, whenever the call
created the log sink file, the file is gone when the call returns. -/
def ClaimC7At (e : StartEnv) : Prop :=
  e.debug = false → (startVpn e).logCreated = true → (startVpn e).logExists = false

/-! ## Helper lemmas -/
theorem isPrefixChk_iff (n h : List Char) :
    isPrefixChk n h = true ↔ ∃ t, h = n ++ t := by
  induction n generalizing h with
  | nil => simp [isPrefixChk]
  | cons a as ih =>
    cases h with
    | nil => simp [isPrefixChk]
    | cons b bs =>
      simp only [isPrefixChk, Bool.and_eq_true, beq_iff_eq, ih]
      constructor
      · rintro ⟨rfl, t, rfl⟩
        exact ⟨t, rfl⟩
      · rintro ⟨t, ht⟩
        simp only [List.cons_append, List.cons.injEq] at ht
        exact ⟨ht.1.symm, t, ht.2⟩

theorem containsSub_iff (n h : List Char) :
    containsSub n h = true ↔ ∃ p t, h = p ++ n ++ t := by
  induction h with
  | nil =>
    simp only [containsSub, List.isEmpty_iff]
    constructor
    · rintro rfl
      exact ⟨[], [], rfl⟩
    · rintro ⟨p, t, ht⟩
      rcases List.append_eq_nil.mp (List.append_eq_nil.mp ht.symm).1 with ⟨_, h2⟩
      exact h2
  | cons c t ih =>
    simp only [containsSub, Bool.or_eq_true, isPrefixChk_iff, ih]
    constructor
    · rintro (⟨s, hs⟩ | ⟨p, s, hs⟩)
      · exact ⟨[], s, by simp [hs]⟩
      · exact ⟨c :: p, s, by simp [hs]⟩
    · rintro ⟨p, s, hs⟩
      cases p with
      | nil =>
        left
        exact ⟨s, by simpa using hs⟩
      | cons p0 ps =>
        right
        simp only [List.cons_append, List.cons.injEq] at hs
        exact ⟨ps, s, hs.2⟩

theorem wfi_skip (pre rest : List (List Char))
    (h : ∀ x ∈ pre, hasSuccess x = false ∧ hasFailure x = false) :
    wait_for_initialization (pre ++ rest) = wait_for_initialization rest := by
  induction pre with
  | nil => rfl
  | cons a as ih =>
    have ha := h a (by simp)
    have ih' := ih (fun x hx => h x (by simp [hx]))
    simp [wait_for_initialization, ha.1, ha.2, ih']

/-! ## C2 — the verbose-mode log classifier -/

/-- Claim C2: over any finite line sequence, `wait_for_initialization`
yields `Established` on the first line containing the success marker,
`Failed` on the first line containing a failure marker (a line with no
marker at all just advances), and `Indeterminate` at end of stream with
no terminal transition; and the spec's three concrete examples evaluate
as stated.  Matching is first-match-wins, case-sensitive substring
comparison (`containsSub`). -/
theorem C2_classifier :
    (∀ pre l post, (∀ x ∈ pre, hasSuccess x = false ∧ hasFailure x = false) →
        hasSuccess l = true →
        wait_for_initialization (pre ++ l :: post) = .Established) ∧
    (∀ pre l post, (∀ x ∈ pre, hasSuccess x = false ∧ hasFailure x = false) →
        hasFailure l = true → hasSuccess l = false →
        wait_for_initialization (pre ++ l :: post) = .Failed) ∧
    (∀ ls, (∀ x ∈ ls, hasSuccess x = false ∧ hasFailure x = false) →
        wait_for_initialization ls = .Indeterminate) ∧
    wait_for_initialization
      ["foo".data, "bar".data, "Initialization Sequence Completed".data] = .Established ∧
    wait_for_initialization ["AUTH_FAILED".data] = .Failed ∧
    wait_for_initialization ([] : List (List Char)) = .Indeterminate := by
  refine ⟨?_, ?_, ?_, by decide, by decide, rfl⟩
  · intro pre l post h hl
    rw [wfi_skip pre _ h]
    simp [wait_for_initialization, hl]
  · intro pre l post h hf hs
    rw [wfi_skip pre _ h]
    simp [wait_for_initialization, hf, hs]
  · intro ls h
    simpa using wfi_skip ls [] h

/-- Witness for C2: the universal parts applied at concrete inputs. -/
theorem C2_classifier_witness :
    wait_for_initialization ["xx".data, "yy Initialization Sequence Completed".data] =
      .Established ∧
    wait_for_initialization ["zz".data, "hit AUTH_FAILED now".data, "later".data] = .Failed ∧
    wait_for_initialization ["aa".data, "bb".data] = .Indeterminate :=
  ⟨C2_classifier.1 ["xx".data] "yy Initialization Sequence Completed".data []
      (by decide) (by decide),
   C2_classifier.2.1 ["zz".data] "hit AUTH_FAILED now".data ["later".data]
      (by decide) (by decide) (by decide),
   C2_classifier.2.2.1 ["aa".data, "bb".data] (by decide)⟩

/-! ## C9 — success marker checked before failure markers -/

/-- Claim C9: a line containing both the success marker and a failure
marker classifies as `Established`: `wait_for_initialization` tests the
success marker first on each line. -/
theorem C9_success_priority (l : List Char) (ls : List (List Char))
    (hs : hasSuccess l = true) (hf : hasFailure l = true) :
    wait_for_initialization (l :: ls) = .Established := by
  simp [wait_for_initialization, hs]

/-- Witness for C9: a concrete line containing both markers. -/
theorem C9_success_priority_witness :
    wait_for_initialization ["Initialization Sequence Completed AUTH_FAILED".data] =
      .Established :=
  C9_success_priority "Initialization Sequence Completed AUTH_FAILED".data []
    (by decide) (by decide)

/-! ## C1 — credential-file permissions during persistence -/

/-- Counterexample to C1: under the standard umask `022` the file is
created by `open(cred_file, 'w')` with mode `0644`; at the observable
point right after creation and before the `chmod`, the permission bits
are not `0600`, so the mode is not `0600` at every observable point
from creation. -/
theorem C1_counterexample : ¬ SecureAtEveryPoint (persistEvents 0o644) := by
  intro h
  have h1 := h 1 (by decide) (by decide)
  simp [persistEvents, modeAfter] at h1

/-- Claim C1 as amended: the `chmod` to `0600` is issued before any
secret bytes are written, and from the `chmod` on (prefixes of length
`≥ 2`) the permission bits are `0600`; but whenever the default
creation mode differs from `0600`, the file briefly carries that wider
default mode between creation and the `chmod`, so the bits are not
`0600` at every observable point from creation. -/
theorem C1_chmod_before_write (d : Nat) :
    writeBeforeChmod 0o600 (persistEvents d) = false ∧
    (∀ k, 2 ≤ k → k ≤ (persistEvents d).length →
      modeAfter ((persistEvents d).take k) = some 0o600) ∧
    (d ≠ 0o600 → ¬ SecureAtEveryPoint (persistEvents d)) := by
  refine ⟨rfl, ?_, ?_⟩
  · intro k h2 h3
    simp only [persistEvents, List.length_cons, List.length_nil] at h3
    interval_cases k
    · rfl
    · rfl
  · intro hd h
    have h1 := h 1 (by decide) (by simp [persistEvents])
    simp [persistEvents, modeAfter] at h1
    exact hd h1

/-- Witness for C1's amended theorem, at default mode `0644`
(umask `022`): no write precedes the `chmod`, and the mode is `0600`
from the `chmod` point on. -/
theorem C1_chmod_before_write_witness :
    writeBeforeChmod 0o600 (persistEvents 0o644) = false ∧
    modeAfter ((persistEvents 0o644).take 2) = some 0o600 ∧
    modeAfter ((persistEvents 0o644).take 3) = some 0o600 :=
  ⟨(C1_chmod_before_write 0o644).1,
   (C1_chmod_before_write 0o644).2.1 2 (by decide) (by decide),
   (C1_chmod_before_write 0o644).2.1 3 (by decide) (by decide)⟩

/-! ## C10 — stripped, two-line credential content -/

theorem pyStrip_subset {c : Char} {s : List Char} (h : c ∈ pyStrip s) : c ∈ s := by
  unfold pyStrip at h
  rw [List.mem_reverse] at h
  have h2 := (List.dropWhile_sublist _).subset h
  rw [List.mem_reverse] at h2
  exact (List.dropWhile_sublist _).subset h2

theorem splitNl_ne_nil (l : List Char) : splitNl l ≠ [] := by
  cases l with
  | nil => simp [splitNl]
  | cons c cs =>
    simp only [splitNl]
    cases h : splitNl cs with
    | nil => simp
    | cons a as =>
      split
      · simp
      · split <;> simp

theorem splitNl_append (l rest : List Char) (h : '\n' ∉ l) :
    splitNl (l ++ '\n' :: rest) = l :: splitNl rest := by
  induction l with
  | nil =>
    simp only [List.nil_append, splitNl]
    cases hr : splitNl rest with
    | nil => exact absurd hr (splitNl_ne_nil rest)
    | cons a as => simp
  | cons c cs ih =>
    have hc : c ≠ '\n' := fun he => h (he ▸ List.mem_cons_self c cs)
    have ih' := ih (fun hm => h (List.mem_cons_of_mem c hm))
    simp only [List.cons_append, splitNl, List.append_eq, ih', hc, if_false]

/-- Claim C10: for entered username `u` and password `p` (single input
lines, hence newline-free), the stored file consists of exactly two
newline-terminated lines holding the entered values with leading and
trailing whitespace stripped; and a secret entered with surrounding
whitespace is not stored verbatim (the stored bytes differ from the
unstripped two-line rendering). -/
theorem C10_stored_content (u p : List Char) (hu : '\n' ∉ u) (hp : '\n' ∉ p) :
    splitNl (credFileContent u p) = [pyStrip u, pyStrip p, []] ∧
    (pyStrip p ≠ p →
      credFileContent u p ≠ pyStrip u ++ ['\n'] ++ p ++ ['\n']) := by
  constructor
  · have hu' : '\n' ∉ pyStrip u := fun hm => hu (pyStrip_subset hm)
    have hp' : '\n' ∉ pyStrip p := fun hm => hp (pyStrip_subset hm)
    have e1 : credFileContent u p = pyStrip u ++ '\n' :: (pyStrip p ++ '\n' :: []) := by
      simp [credFileContent]
    rw [e1, splitNl_append _ _ hu', splitNl_append _ _ hp']
    rfl
  · intro hne he
    apply hne
    have e1 : credFileContent u p = pyStrip u ++ ('\n' :: (pyStrip p ++ ['\n'])) := by
      simp [credFileContent]
    have e2 : pyStrip u ++ ['\n'] ++ p ++ ['\n'] = pyStrip u ++ ('\n' :: (p ++ ['\n'])) := by
      simp
    rw [e1, e2] at he
    have h3 := List.append_cancel_left he
    have h4 : pyStrip p ++ ['\n'] = p ++ ['\n'] := List.cons_injective h3
    exact List.append_cancel_right h4

/-- Witness for C10: the secret entered as `" s3cret "` is stored as the
line `s3cret`, not verbatim. -/
theorem C10_stored_content_witness :
    splitNl (credFileContent "alice".data " s3cret ".data) =
      ["alice".data, "s3cret".data, []] ∧
    credFileContent "alice".data " s3cret ".data ≠
      "alice".data ++ ['\n'] ++ " s3cret ".data ++ ['\n'] := by
  have h := C10_stored_content "alice".data " s3cret ".data (by decide) (by decide)
  refine ⟨?_, ?_⟩
  · rw [h.1]
    decide
  · have h2 := h.2 (by decide)
    intro he
    apply h2
    rw [he]
    decide

/-! ## C3 — remediation aborts at the first failing fix command -/

/-- Counterexample to C3: with two fix commands where the first fails
(and the second would succeed), the loop — run under a single
`try`/`except` with `check=True` — attempts only the first command, so
the remaining item's fix command is not attempted. -/
theorem C3_counterexample : ¬ ClaimC3At (fun c => c == "cmd2") ["cmd1", "cmd2"] := by
  intro h
  have h1 := h.1
  simp [remediate] at h1

/-- Claim C3 as amended: `remediate` applies the fix commands in order,
but the first failure raises out of the loop, so the commands actually
attempted form a prefix of the list ending at the first failure and the
remaining items are not attempted; the aggregate boolean is true if and
only if all items succeeded (in which case every command was run). -/
theorem C3_remediate (ok : String → Bool) (cmds : List String) :
    ((remediate ok cmds).2 = true ↔ ∀ c ∈ cmds, ok c = true) ∧
    (∃ rest, (remediate ok cmds).1 ++ rest = cmds) ∧
    ((∀ c ∈ cmds, ok c = true) → (remediate ok cmds).1 = cmds) := by
  induction cmds with
  | nil => simp [remediate]
  | cons c cs ih =>
    by_cases hc : ok c = true
    · simp only [remediate, hc, if_true]
      refine ⟨?_, ?_, ?_⟩
      · simp [ih.1, hc]
      · obtain ⟨rest, hrest⟩ := ih.2.1
        exact ⟨rest, by simp [hrest]⟩
      · intro hall
        have := ih.2.2 (fun x hx => hall x (by simp [hx]))
        simp [this]
    · simp only [remediate, hc, if_false]
      refine ⟨iff_of_false (by simp) ?_, ⟨cs, rfl⟩, ?_⟩
      · intro hall
        exact hc (hall c (by simp))
      · intro hall
        exact absurd (hall c (by simp)) hc

/-- Witness for C3's amended theorem: with both commands succeeding the
aggregate is true and both were attempted. -/
theorem C3_remediate_witness :
    (remediate (fun _ => true) ["cmd1", "cmd2"]).2 = true ∧
    (remediate (fun _ => true) ["cmd1", "cmd2"]).1 = ["cmd1", "cmd2"] :=
  ⟨(C3_remediate (fun _ => true) ["cmd1", "cmd2"]).1.mpr (by decide),
   (C3_remediate (fun _ => true) ["cmd1", "cmd2"]).2.2 (by decide)⟩

/-! ## C6 — `kill_openvpn`'s boolean result -/

/-- Counterexample to C6: two matching pids where killing the first
succeeds and killing the second fails — the first process was
terminated, yet the function returns `False` (the failing `kill`
raises into the `except` branch). -/
theorem C6_counterexample : ¬ ClaimC6At ["1", "2"] (fun p => p == "1") := by
  intro h
  have := h.mpr (by decide)
  simp [kill_openvpn, killLoop] at this

/-- Claim C6 as amended: `kill_openvpn` returns true exactly when at
least one process matched and every matching process was successfully
terminated (in which case all pids were terminated); a "no matching
process" condition is not an error — it yields `(false, [])` — and a
failing kill mid-loop also yields false even though the earlier pids
were already terminated. -/
theorem C6_kill (pids : List String) (killOk : String → Bool) :
    ((kill_openvpn pids killOk).1 = true ↔
      pids ≠ [] ∧ ∀ p ∈ pids, killOk p = true) ∧
    (pids = [] → kill_openvpn pids killOk = (false, [])) ∧
    ((kill_openvpn pids killOk).1 = true → (kill_openvpn pids killOk).2 = pids) := by
  have hloop : ∀ ps : List String,
      ((killLoop killOk ps).2 = true ↔ ∀ p ∈ ps, killOk p = true) ∧
      ((killLoop killOk ps).2 = true → (killLoop killOk ps).1 = ps) := by
    intro ps
    induction ps with
    | nil => simp [killLoop]
    | cons p ps ih =>
      by_cases hp : killOk p = true
      · simp only [killLoop, hp, if_true]
        constructor
        · simp [ih.1, hp]
        · intro hall
          simp [ih.2 hall]
      · simp only [killLoop, hp, if_false]
        refine ⟨iff_of_false (by simp) ?_, ?_⟩
        · intro hall
          exact hp (hall p (by simp))
        · intro hfalse
          exact absurd hfalse (by simp)
  cases pids with
  | nil => simp [kill_openvpn]
  | cons q qs =>
    refine ⟨?_, by simp, ?_⟩
    · simp only [kill_openvpn, List.isEmpty_cons, if_false, Bool.false_eq_true]
      rw [(hloop (q :: qs)).1]
      simp
    · intro h1
      simp only [kill_openvpn, List.isEmpty_cons, if_false, Bool.false_eq_true] at h1 ⊢
      exact (hloop (q :: qs)).2 h1

/-- Witness for C6's amended theorem: one matching pid, kill succeeds —
result true with that pid terminated; and the empty (no-match) case. -/
theorem C6_kill_witness :
    (kill_openvpn ["7"] (fun _ => true)).1 = true ∧
    kill_openvpn [] (fun _ => true) = (false, []) :=
  ⟨(C6_kill ["7"] (fun _ => true)).1.mpr (by decide),
   (C6_kill [] (fun _ => true)).2.1 rfl⟩

/-! ## C5 — unconditional stop before start -/

theorem startVpn_trace_shape (e : StartEnv) (h : e.sudoOk = true) :
    ∃ tr, (startVpn e).trace = Act.checkSudo :: Act.killExisting :: tr := by
  unfold startVpn
  rw [h]
  simp only [Bool.not_true, Bool.false_eq_true, if_false]
  split
  · exact ⟨[Act.touchLog], rfl⟩
  · split
    · exact ⟨[Act.touchLog, Act.chmodLog], rfl⟩
    · split
      · exact ⟨_, rfl⟩
      · split
        · simp only [finallyCleanup]
          split
          · exact ⟨_, rfl⟩
          · split <;> exact ⟨_, rfl⟩
        · split
          · exact ⟨_, rfl⟩
          · split
            · simp only [finallyCleanup]
              split
              · exact ⟨_, rfl⟩
              · split <;> exact ⟨_, rfl⟩
            · simp only [finallyCleanup]
              split
              · exact ⟨_, rfl⟩
              · split <;> exact ⟨_, rfl⟩

/-- Claim C5: for every call to `start_vpn` — in particular regardless
of whether an OpenVPN instance is already running (`instanceRunning`
influences nothing here) — the call that passes the sudo gate issues
`kill_openvpn` as its very next external action, and whenever the
external client is launched, the `kill_openvpn` stop-equivalent action
occurs strictly before the launch in the trace. -/
theorem C5_stop_before_start (e : StartEnv) :
    (e.sudoOk = true →
      ∃ tr, (startVpn e).trace = Act.checkSudo :: Act.killExisting :: tr) ∧
    (Act.launch ∈ (startVpn e).trace →
      ∃ tr, (startVpn e).trace = Act.checkSudo :: Act.killExisting :: tr ∧
        Act.launch ∈ tr) := by
  refine ⟨startVpn_trace_shape e, ?_⟩
  intro hmem
  have hs : e.sudoOk = true := by
    by_contra hns
    have hs' : e.sudoOk = false := by
      cases hx : e.sudoOk
      · rfl
      · exact absurd hx hns
    rw [startVpn, hs'] at hmem
    simp at hmem
  obtain ⟨tr, htr⟩ := startVpn_trace_shape e hs
  refine ⟨tr, htr, ?_⟩
  rw [htr] at hmem
  simpa using hmem

/-- Witness for C5: a concrete call (normal mode, everything
succeeding, an instance already running) whose trace puts the kill
right after the sudo check and before the launch. -/
theorem C5_stop_before_start_witness :
    ∃ tr, (startVpn ⟨true, true, true, true, false, true, true, false,
        false, true, true, true⟩).trace =
      Act.checkSudo :: Act.killExisting :: tr ∧ Act.launch ∈ tr :=
  (C5_stop_before_start _).2 (by decide)

/-! ## C7 — log-sink cleanup on non-verbose completion -/

/-- Counterexample to C7: a non-verbose call where the log sink is
created (`touch` and `chmod` succeed) and credential resolution then
fails — the call returns before the `try`/`finally`, leaving the
created log file behind, so the file is not deleted on this
credential-failure outcome. -/
theorem C7_counterexample :
    ¬ ClaimC7At ⟨true, true, true, true, true, false, true, false,
        false, true, true, true⟩ := by
  intro h
  have := h rfl (by decide)
  simp at this
  exact absurd this (by decide)

/-- Claim C7 as amended: in non-verbose mode the created log sink file
is deleted before `start_vpn` returns on every path that reaches the
client launch — success, launch failure, or interrupt during the wait —
provided the swallowed `sudo rm` itself succeeds; but on a
credential-resolution failure (which returns before the `try`/`finally`
block) the created log file is left behind.  In verbose mode no
deletion is ever attempted and the log is left behind. -/
theorem C7_log_cleanup (e : StartEnv) :
    (e.debug = false → e.rmOk = true → Act.launch ∈ (startVpn e).trace →
      (startVpn e).logExists = false) ∧
    (e.debug = false → e.sudoOk = true → e.touchOk = true → e.chmodOk = true →
      e.requiresAuth = true → e.credOk = false →
      (startVpn e).logCreated = true ∧ (startVpn e).logExists = true) ∧
    (e.debug = true → Act.rmLog ∉ (startVpn e).trace ∧
      (Act.touchLog ∈ (startVpn e).trace → e.touchOk = true →
        (startVpn e).logExists = (startVpn e).logCreated)) := by
  obtain ⟨sudoOk, instanceRunning, touchOk, chmodOk, requiresAuth, credOk,
    launchOk, debug, interrupt, aliveAfterSleep, initOk, rmOk⟩ := e
  cases sudoOk <;> cases touchOk <;> cases chmodOk <;> cases requiresAuth <;>
    cases credOk <;> cases launchOk <;> cases debug <;> cases interrupt <;>
    cases rmOk <;> simp [startVpn, finallyCleanup]

/-! ## C4 — the audit records every deviation -/

theorem length_filterMap_ite {α β : Type} (p : α → Prop) [DecidablePred p]
    (g : α → β) (l : List α) :
    (l.filterMap (fun x => if p x then some (g x) else none)).length =
    l.countP (fun x => decide (p x)) := by
  induction l with
  | nil => rfl
  | cons a as ih =>
    by_cases hp : p a <;>
      simp [List.filterMap_cons, List.countP_cons, hp, ih]

/-- Claim C4: the audit never stops at the first deviation — its issue
list is empty with `ok = true` exactly on trees where every examined
item (every `.ovpn` file at `0600`, the credential directory at `0700`,
every `.cred` file at `0600`) satisfies its required mode; on any tree
it records exactly `wrongCount t` issues (one per deviating item, K of
them), and every recorded issue carries the correct expected/actual
mode pair of the item it came from. -/
theorem C4_audit (t : PTree) :
    (auditOk t = true ↔ auditIssues t = []) ∧
    (TreeAllOk t → auditOk t = true ∧ auditIssues t = []) ∧
    (auditIssues t).length = wrongCount t ∧
    (∀ i ∈ auditIssues t, IssueCorrect t i) := by
  refine ⟨by simp [auditOk, List.isEmpty_iff], ?_, ?_, ?_⟩
  · rintro ⟨h1, h2⟩
    have hA : (t.ovpnWalk.filter (fun f => endsWithStr f.name ".ovpn")).filterMap
        (fun f => if f.stMode &&& 0o777 ≠ 0o600 then
          some (⟨f.path, 0o600, f.stMode &&& 0o777⟩ : PermIssue) else none) = [] := by
      rw [List.filterMap_eq_nil_iff]
      intro f hf
      rw [List.mem_filter] at hf
      rw [if_neg]
      simp [h1 f hf.1 hf.2]
    have hB : (match t.credDir with
        | none => ([] : List PermIssue)
        | some d =>
          (if d.stMode &&& 0o777 ≠ 0o700 then
            [⟨d.path, 0o700, d.stMode &&& 0o777⟩] else []) ++
          (d.files.filter (fun f => endsWithStr f.name ".cred")).filterMap
            (fun f => if f.stMode &&& 0o777 ≠ 0o600 then
              some (⟨f.path, 0o600, f.stMode &&& 0o777⟩ : PermIssue) else none)) = [] := by
      cases hd : t.credDir with
      | none => rfl
      | some d =>
        obtain ⟨hdm, hdf⟩ := h2 d hd
        have hBf : (d.files.filter (fun f => endsWithStr f.name ".cred")).filterMap
            (fun f => if f.stMode &&& 0o777 ≠ 0o600 then
              some (⟨f.path, 0o600, f.stMode &&& 0o777⟩ : PermIssue) else none) = [] := by
          rw [List.filterMap_eq_nil_iff]
          intro f hf
          rw [List.mem_filter] at hf
          rw [if_neg]
          simp [hdf f hf.1 hf.2]
        simp [hdm, hBf]
        exact hdf
    have he : auditIssues t = [] := by
      unfold auditIssues
      rw [hA, hB]
      rfl
    exact ⟨by simp [auditOk, he], he⟩
  · unfold auditIssues wrongCount
    rw [List.length_append, length_filterMap_ite]
    congr 1
    cases t.credDir with
    | none => rfl
    | some d =>
      simp only [List.length_append, length_filterMap_ite]
      congr 1
      by_cases hd : d.stMode &&& 0o777 ≠ 0o700 <;> simp [hd]
  · intro i hi
    unfold auditIssues at hi
    rw [List.mem_append] at hi
    rcases hi with hi | hi
    · rw [List.mem_filterMap] at hi
      obtain ⟨f, hf, hfi⟩ := hi
      rw [List.mem_filter] at hf
      by_cases hm : f.stMode &&& 0o777 ≠ 0o600
      · rw [if_pos hm] at hfi
        obtain rfl := Option.some_injective _ hfi
        exact ⟨hm, Or.inl ⟨f, hf.1, hf.2, rfl, rfl, rfl⟩⟩
      · rw [if_neg hm] at hfi
        exact absurd hfi (by simp)
    · cases hd : t.credDir with
      | none => rw [hd] at hi; simp at hi
      | some d =>
        rw [hd] at hi
        rw [List.mem_append] at hi
        rcases hi with hi | hi
        · by_cases hm : d.stMode &&& 0o777 ≠ 0o700
          · rw [if_pos hm] at hi
            rw [List.mem_singleton] at hi
            subst hi
            exact ⟨hm, Or.inr (Or.inl ⟨d, hd, rfl, rfl, rfl⟩)⟩
          · rw [if_neg hm] at hi
            simp at hi
        · rw [List.mem_filterMap] at hi
          obtain ⟨f, hf, hfi⟩ := hi
          rw [List.mem_filter] at hf
          by_cases hm : f.stMode &&& 0o777 ≠ 0o600
          · rw [if_pos hm] at hfi
            obtain rfl := Option.some_injective _ hfi
            exact ⟨hm, Or.inr (Or.inr ⟨d, hd, f, hf.1, hf.2, rfl, rfl, rfl⟩)⟩
          · rw [if_neg hm] at hfi
            exact absurd hfi (by simp)

/-- Witness for C4: an all-correct tree audits clean, and a tree with
exactly two deviations (one `.ovpn` file at `0644`, one `.cred` file at
`0640`) yields exactly two issues. -/
theorem C4_audit_witness :
    auditOk ⟨[⟨"/v/a.ovpn", "a.ovpn", 0o100600⟩],
      some ⟨"/c", 0o40700, [⟨"/c/a.cred", "a.cred", 0o100600⟩]⟩⟩ = true ∧
    (auditIssues ⟨[⟨"/v/a.ovpn", "a.ovpn", 0o100644⟩],
      some ⟨"/c", 0o40700, [⟨"/c/a.cred", "a.cred", 0o100640⟩]⟩⟩).length =
      wrongCount ⟨[⟨"/v/a.ovpn", "a.ovpn", 0o100644⟩],
        some ⟨"/c", 0o40700, [⟨"/c/a.cred", "a.cred", 0o100640⟩]⟩⟩ :=
  ⟨((C4_audit _).2.1 (by constructor <;> simp [endsWithStr, isPrefixChk] <;> decide)).1,
   (C4_audit ⟨[⟨"/v/a.ovpn", "a.ovpn", 0o100644⟩],
      some ⟨"/c", 0o40700, [⟨"/c/a.cred", "a.cred", 0o100640⟩]⟩⟩).2.2.1⟩

/-! ## C8 — configuration discovery and credential classification -/

/-- Claim C8: for a configuration root whose recursive walk meets any
set of files, `find_ovpn_files` returns exactly one entry per file
named `*.ovpn` (N entries for N tunnel-definition files, at any
nesting depth), each entry built from that file's walk position; and
`needs_credentials` — a pure read-only function of the file's content —
is true exactly when the `auth-user-pass` authentication-directive
marker occurs in the content. -/
theorem C8_listConfigs (walk : List WalkFile) :
    (find_ovpn_files walk).length =
      (walk.filter (fun f => endsWithStr f.name ".ovpn")).length ∧
    (∀ e ∈ find_ovpn_files walk, ∃ f ∈ walk,
      endsWithStr f.name ".ovpn" = true ∧
      e = ⟨f.name, f.dirPath ++ "/" ++ f.name, basenameStr f.dirPath⟩) ∧
    (∀ f ∈ walk, needs_credentials f.content = true ↔ MarkerPresent f.content) := by
  refine ⟨by simp [find_ovpn_files], ?_, ?_⟩
  · intro e he
    simp only [find_ovpn_files, List.mem_map, List.mem_filter] at he
    obtain ⟨f, ⟨hf, hend⟩, rfl⟩ := he
    exact ⟨f, hf, hend, rfl⟩
  · intro f _
    exact containsSub_iff "auth-user-pass".data f.content.data

/-- Witness for C8: a three-file walk with two `.ovpn` files, one of
which carries the authentication directive. -/
theorem C8_listConfigs_witness :
    (find_ovpn_files
        [⟨"/v/a", "x.ovpn", "client\nauth-user-pass\n"⟩,
         ⟨"/v/a", "note.txt", "hello"⟩,
         ⟨"/v/b", "y.ovpn", "client\n"⟩]).length = 2 ∧
    MarkerPresent "client\nauth-user-pass\n" ∧
    needs_credentials "client\n" = false :=
  ⟨by
    rw [(C8_listConfigs _).1]
    decide,
   ((C8_listConfigs [⟨"/v/a", "x.ovpn", "client\nauth-user-pass\n"⟩]).2.2
      ⟨"/v/a", "x.ovpn", "client\nauth-user-pass\n"⟩ (by simp)).mp (by decide),
   by decide⟩

/-- Witness for C7's amended theorem: a concrete non-verbose run that
reaches the launch has the log gone at return; a concrete verbose run
never attempts the deletion. -/
theorem C7_log_cleanup_witness :
    (startVpn ⟨true, true, true, true, false, true, true, false,
        false, true, true, true⟩).logExists = false ∧
    Act.rmLog ∉ (startVpn ⟨true, true, true, true, false, true, true, true,
        false, true, true, true⟩).trace :=
  ⟨(C7_log_cleanup ⟨true, true, true, true, false, true, true, false,
      false, true, true, true⟩).1 rfl rfl (by decide),
   ((C7_log_cleanup ⟨true, true, true, true, false, true, true, true,
      false, true, true, true⟩).2.2 rfl).1⟩
